import Mathlib

/-!
Shallow embedding of `src/services/adapters/utils.py` (storage-adapter
utility helpers): entry sorting and pagination, HTTP Range header parsing,
stream header construction, best-effort EXIF extraction and the
destination-existence guard.  Python strings are modelled over their
character lists; Python `int(...)`, `str.strip()` and slicing are modelled
for ASCII text, which is the alphabet all relevant behaviour depends on.
Machine integers are `Int` (Python integers are unbounded, so no modular
reduction is needed).
-/

/-- A directory-listing entry: the dictionary fields that
`sort_and_paginate_entries` reads (`name`, `is_dir`, `size`, `mtime`). -/
structure Entry where
  name : String
  is_dir : Bool
  size : Int
  mtime : Int
deriving DecidableEq, Repr

/-- Python `str.lower()` on one character (ASCII model). -/
def pyLowerChar (c : Char) : Char :=
  if 'A' ≤ c ∧ c ≤ 'Z' then Char.ofNat (c.toNat + 32) else c

/-- Python `str.lower()` (ASCII model). -/
def pyLower (s : String) : String := String.mk (s.data.map pyLowerChar)

/-- Python string `<=`: lexicographic comparison by code point. -/
def pyStrLe : List Char → List Char → Bool
  | [], _ => true
  | _ :: _, [] => false
  | c :: cs, d :: ds => if c < d then true else if d < c then false else pyStrLe cs ds

/-- Python whitespace characters stripped by `str.strip()` and accepted
around `int(...)` literals (ASCII model). -/
def isPySpace (c : Char) : Bool :=
  c = ' ' ∨ c = '\t' ∨ c = '\n' ∨ c = '\r' ∨ c = '\x0b' ∨ c = '\x0c'

/-- Python `str.strip()` on a character list: drop leading and trailing
whitespace. -/
def pyStrip (cs : List Char) : List Char :=
  ((cs.dropWhile isPySpace).reverse.dropWhile isPySpace).reverse

/-- Digit run of a Python integer literal after the first digit: ASCII
digits with single underscores allowed between digits. -/
def parseDigitsAux : Nat → List Char → Option Nat
  | acc, [] => some acc
  | acc, c :: cs =>
    if c.isDigit then parseDigitsAux (10 * acc + (c.toNat - 48)) cs
    else if c = '_' then
      match cs with
      | c2 :: cs2 =>
        if c2.isDigit then parseDigitsAux (10 * acc + (c2.toNat - 48)) cs2 else none
      | [] => none
    else none

/-- Unsigned part of a Python integer literal: a non-empty ASCII digit run,
underscores only between digits. -/
def parseDigits : List Char → Option Nat
  | [] => none
  | c :: cs => if c.isDigit then parseDigitsAux (c.toNat - 48) cs else none

/-- Python `int(s)` on a character list (ASCII model): surrounding
whitespace, an optional sign, then digits with underscores between them;
anything else raises `ValueError`, modelled as `none`. -/
def pyIntChars (cs : List Char) : Option Int :=
  match pyStrip cs with
  | [] => none
  | c :: rest =>
    if c = '+' then (parseDigits rest).map Int.ofNat
    else if c = '-' then (parseDigits rest).map (fun n => -(Int.ofNat n))
    else (parseDigits (c :: rest)).map Int.ofNat

/-- Python `part.split("-", 1)` when it yields two pieces: split at the
first `'-'`; `none` models the one-piece result whose tuple unpacking
raises `ValueError`. -/
def splitOnceOnDash : List Char → Option (List Char × List Char)
  | [] => none
  | c :: cs =>
    if c = '-' then some ([], cs)
    else (splitOnceOnDash cs).map (fun p => (c :: p.1, p.2))

/-- Resolve one Python slice index against a list length: negative indices
count from the end, then the index is clamped into `[0, len]`. -/
def pyResolveIdx (len : Nat) (i : Int) : Nat :=
  if i < 0 then ((len : Int) + i).toNat else min i.toNat len

/-- Python `l[a:b]` with step 1. -/
def pySlice {α : Type} (l : List α) (a b : Int) : List α :=
  (l.take (pyResolveIdx l.length b)).drop (pyResolveIdx l.length a)

/-- The sort key comparison of `get_sort_key`: the tuple
`(not is_dir, field)` compared lexicographically, where the field is the
case-folded name for `"name"` and for any unrecognized value, the size for
`"size"` and the mtime for `"mtime"`. -/
def entryKeyLe (sort_by : String) (a b : Entry) : Bool :=
  let ra : Nat := if a.is_dir then 0 else 1
  let rb : Nat := if b.is_dir then 0 else 1
  if ra < rb then true
  else if rb < ra then false
  else
    let sf := pyLower sort_by
    if sf = "size" then a.size ≤ b.size
    else if sf = "mtime" then a.mtime ≤ b.mtime
    else pyStrLe (pyLower a.name).data (pyLower b.name).data

/-- The comparator actually applied by `entries.sort(key=..., reverse=...)`:
`reverse=True` sorts as if every key comparison were reversed while keeping
the sort stable. -/
def entryBefore (sort_by : String) (sort_order : String) (a b : Entry) : Bool :=
  if pyLower sort_order = "desc" then entryKeyLe sort_by b a
  else entryKeyLe sort_by a b

/-- The sorted state of the entries list after `entries.sort(...)`:
a stable sort under `entryBefore` (Python's Timsort is stable, so any
stable sort under the same comparator produces the same list). -/
def pySortEntries (entries : List Entry) (sort_by sort_order : String) : List Entry :=
  List.insertionSort (fun a b => entryBefore sort_by sort_order a b = true) entries

/-- `sort_and_paginate_entries`.  Python's `list.sort` mutates the caller's
list in place, so the embedding returns both the function's result
`(page_entries, total_count)` and the post-call state of the caller's
`entries` list (the second component). -/
def sort_and_paginate_entries (entries : List Entry) (page_num : Int)
    (page_size : Int) (sort_by : String) (sort_order : String) :
    (List Entry × Nat) × List Entry :=
  let sorted := pySortEntries entries sort_by sort_order
  let total_count := sorted.length
  let start_idx := (page_num - 1) * page_size
  let end_idx := start_idx + page_size
  let page_entries := pySlice sorted start_idx end_idx
  ((page_entries, total_count), sorted)

/-- The exceptions `parse_range_header` can raise. -/
inductive RangeErr where
  | valueError
  | indexError
deriving DecidableEq, Repr

/-- `if s.strip(): x = int(s)` with default `d`: keep the default when the
field is blank, parse it otherwise, raising `ValueError` on failure. -/
def parseField (s : List Char) (d : Int) : Except RangeErr Int :=
  if pyStrip s ≠ [] then
    match pyIntChars s with
    | some v => .ok v
    | none => .error .valueError
  else .ok d

/-- The `bytes=`-prefixed branch of `parse_range_header`, applied to the
text after the prefix. -/
def parseRangeBody (part : List Char) (file_size : Int) :
    Except RangeErr (Int × Int × Nat × Bool) :=
  match splitOnceOnDash part with
  | none => .error .valueError
  | some (s, e) =>
    match parseField s 0 with
    | .error err => .error err
    | .ok start =>
      match parseField e (file_size - 1) with
      | .error err => .error err
      | .ok endv =>
        if start ≥ file_size then .error .indexError
        else
          let endv := if endv ≥ file_size then file_size - 1 else endv
          .ok (start, endv, 206, true)

/-- `parse_range_header`: returns `(start, end, status, partial_flag)` or
raises `ValueError` (malformed) / `IndexError` (not satisfiable). -/
def parse_range_header (range_header : Option String) (file_size : Int) :
    Except RangeErr (Int × Int × Nat × Bool) :=
  match range_header with
  | none => .ok (0, file_size - 1, 200, false)
  | some h =>
    if h.data.take 6 = "bytes=".data then
      parseRangeBody (h.data.drop 6) file_size
    else .ok (0, file_size - 1, 200, false)

/-- One character of a percent-encoded hex byte (uppercase, as
`urllib.parse.quote` emits). -/
def hexDigitChar (n : Nat) : Char :=
  if n < 10 then Char.ofNat (48 + n) else Char.ofNat (55 + n)

/-- UTF-8 encoding of one character, as byte values. -/
def utf8Bytes (c : Char) : List Nat :=
  let n := c.toNat
  if n < 0x80 then [n]
  else if n < 0x800 then [0xC0 ||| (n >>> 6), 0x80 ||| (n &&& 0x3F)]
  else if n < 0x10000 then
    [0xE0 ||| (n >>> 12), 0x80 ||| ((n >>> 6) &&& 0x3F), 0x80 ||| (n &&& 0x3F)]
  else
    [0xF0 ||| (n >>> 18), 0x80 ||| ((n >>> 12) &&& 0x3F),
     0x80 ||| ((n >>> 6) &&& 0x3F), 0x80 ||| (n &&& 0x3F)]

/-- A byte `urllib.parse.quote` leaves unencoded with the default
`safe='/'`: ASCII letters, digits, `_`, `.`, `-`, `~` and `/`. -/
def quoteSafeByte (b : Nat) : Bool :=
  (65 ≤ b ∧ b ≤ 90) ∨ (97 ≤ b ∧ b ≤ 122) ∨ (48 ≤ b ∧ b ≤ 57) ∨
  b = 95 ∨ b = 46 ∨ b = 45 ∨ b = 126 ∨ b = 47

/-- Percent-encode one byte as `urllib.parse.quote` does. -/
def quoteByte (b : Nat) : List Char :=
  if quoteSafeByte b then [Char.ofNat b]
  else ['%', hexDigitChar (b / 16), hexDigitChar (b % 16)]

/-- `urllib.parse.quote(s)` with the default `safe='/'`: percent-encode
the UTF-8 bytes of `s`. -/
def pyQuote (s : String) : String :=
  String.mk ((s.data.flatMap utf8Bytes).flatMap quoteByte)

/-- Assign `d[k] = v` on a Python dict modelled as an insertion-ordered
association list: update in place when the key exists, else append. -/
def dictSet (d : List (String × String)) (k v : String) : List (String × String) :=
  if d.any (fun p => p.1 = k) then
    d.map (fun p => if p.1 = k then (k, v) else p)
  else d ++ [(k, v)]

/-- Python `d.get(k)` on the association-list dict model. -/
def pyDictGet (d : List (String × String)) (k : String) : Option String :=
  (d.find? (fun p => p.1 = k)).map (fun p => p.2)

/-- `build_stream_headers`: the response-header dict for a streaming
response.  `partialFlag` is the function's `is partial` argument. -/
def build_stream_headers (content_type : String) (file_size : Int)
    (start : Int) (endv : Int) (partialFlag : Bool)
    (filename : Option String) : List (String × String) :=
  let headers := [("Accept-Ranges", "bytes"), ("Content-Type", content_type)]
  let headers :=
    if partialFlag then
      dictSet
        (dictSet headers "Content-Range"
          ("bytes " ++ toString start ++ "-" ++ toString endv ++ "/" ++ toString file_size))
        "Content-Length" (toString (endv - start + 1))
    else dictSet headers "Content-Length" (toString file_size)
  match filename with
  | some f =>
    if f ≠ "" then
      dictSet headers "Content-Disposition" ("inline; filename=\"" ++ pyQuote f ++ "\"")
    else headers
  | none => headers

/-- A Python exception value from the image library (its identity is
irrelevant to the embedding). -/
inductive PyErr where
  | err
deriving DecidableEq, Repr

/-- The attributes of a decoded PIL image that `extract_exif_data` reads:
`getexif` and the legacy private accessor.  `none` models the attribute
being absent (`hasattr` false); a present attribute either raises or
returns the tag/value pairs, with `[]` for a falsy result (no metadata,
covering both an empty mapping and `None`). -/
structure PILImage where
  getexifAttr : Option (Except PyErr (List (Int × String)))
  privateExifAttr : Option (Except PyErr (List (Int × String)))

/-- `extract_exif_data`: best-effort EXIF extraction.  The argument is the
outcome of `Image.open` on the given path (run in a worker thread); the
whole body sits in `try ... except Exception: pass` followed by
`return None`. -/
def extract_exif_data (openRes : Except PyErr PILImage) :
    Except PyErr (Option (List (String × String))) :=
  let body : Except PyErr (Option (List (String × String))) :=
    match openRes with
    | .error e => .error e
    | .ok img =>
      match img.getexifAttr with
      | some r =>
        match r with
        | .error e => .error e
        | .ok d =>
          if d ≠ [] then .ok (some (d.map (fun p => (toString p.1, p.2))))
          else .ok none
      | none =>
        match img.privateExifAttr with
        | some r =>
          match r with
          | .error e => .error e
          | .ok d =>
            if d ≠ [] then .ok (some (d.map (fun p => (toString p.1, p.2))))
            else .ok none
        | none => .ok none
  match body with
  | .error _ => .ok none
  | .ok v => .ok v

/-- Outcome of calling an adapter's `exists(root, rel)` coroutine: a
boolean result, a raised `HTTPException` (status code and detail), or a
raised non-HTTP exception. -/
inductive ExistsOutcome where
  | ok (b : Bool)
  | errHTTP (code : Int) (detail : String)
  | errOther

/-- The adapter's `exists` capability as `check_file_exists` probes it:
`getattr(adapter, "exists", None)` may be absent, present but not
callable, or callable. -/
inductive ExistsCap where
  | absent
  | nonCallable
  | callable (f : String → String → ExistsOutcome)

/-- `check_file_exists`: raise 409 when the destination exists and
overwrite is off; re-raise an `HTTPException` coming out of the check;
swallow any other failure of the check. -/
def check_file_exists (cap : ExistsCap) (root : String) (rel : String)
    (overwrite : Bool) : Except (Int × String) Unit :=
  match cap with
  | .callable f =>
    if !overwrite then
      match f root rel with
      | .ok true => .error (409, "Destination exists")
      | .ok false => .ok ()
      | .errHTTP c d => .error (c, d)
      | .errOther => .ok ()
    else .ok ()
  | _ => .ok ()

/-- A range field that triggers `ValueError`: its stripped text is
non-empty (so `int(...)` is attempted) but it is not a valid Python
integer literal. -/
def fieldBad (s : List Char) : Prop := pyStrip s ≠ [] ∧ pyIntChars s = none

/-- The effective start offset a parsed field yields: the default 0 when
the field is blank, its integer value otherwise. -/
def effStart (s : List Char) : Int :=
  if pyStrip s = [] then 0 else (pyIntChars s).getD 0

instance (s : List Char) : Decidable (fieldBad s) :=
  inferInstanceAs (Decidable (_ ∧ _))

/-! ### Lemmas about the range parser -/

theorem mem_pyStrip {x : Char} {cs : List Char} (h : x ∈ pyStrip cs) : x ∈ cs := by
  unfold pyStrip at h
  rw [List.mem_reverse] at h
  have h1 := (List.dropWhile_sublist (l := (cs.dropWhile isPySpace).reverse)
    (p := isPySpace)).mem h
  rw [List.mem_reverse] at h1
  exact (List.dropWhile_sublist (l := cs) (p := isPySpace)).mem h1

theorem splitOnceOnDash_no_dash :
    ∀ {cs s e : List Char}, splitOnceOnDash cs = some (s, e) → '-' ∉ s := by
  intro cs
  induction cs with
  | nil => intro s e h; simp [splitOnceOnDash] at h
  | cons c cs ih =>
    intro s e h
    unfold splitOnceOnDash at h
    by_cases hc : c = '-'
    · rw [if_pos hc] at h
      simp only [Option.some.injEq, Prod.mk.injEq] at h
      rw [← h.1]
      simp
    · rw [if_neg hc] at h
      rcases hsp : splitOnceOnDash cs with _ | ⟨a, b⟩
      · rw [hsp] at h; simp at h
      · rw [hsp] at h
        simp only [Option.map_some', Option.some.injEq, Prod.mk.injEq] at h
        obtain ⟨hs, he⟩ := h
        rw [← hs]
        intro hmem
        rcases List.mem_cons.1 hmem with h1 | h1
        · exact hc h1.symm
        · exact ih hsp h1

theorem pyIntChars_nonneg {cs : List Char} {v : Int}
    (hnd : '-' ∉ cs) (h : pyIntChars cs = some v) : 0 ≤ v := by
  unfold pyIntChars at h
  split at h
  · exact absurd h (by simp)
  · next c rest hstrip =>
    have hc : c ≠ '-' := fun hceq =>
      hnd (mem_pyStrip (hstrip ▸ (hceq ▸ List.mem_cons_self c rest)))
    by_cases hplus : c = '+'
    · rw [if_pos hplus] at h
      obtain ⟨n, _, hn⟩ := Option.map_eq_some'.1 h
      rw [← hn]
      exact Int.ofNat_nonneg n
    · rw [if_neg hplus, if_neg hc] at h
      obtain ⟨n, _, hn⟩ := Option.map_eq_some'.1 h
      rw [← hn]
      exact Int.ofNat_nonneg n

theorem parseRangeBody_ok_bounds {part : List Char} {fs s e : Int} {st : Nat}
    {fl : Bool} (h : parseRangeBody part fs = .ok (s, e, st, fl)) :
    0 ≤ s ∧ s ≤ fs - 1 ∧ e ≤ fs - 1 ∧ st = 206 ∧ fl = true := by
  unfold parseRangeBody at h
  split at h
  · exact absurd h (by simp)
  · next sf ef hsplit =>
    split at h
    · exact absurd h (by simp)
    · next start hstart =>
      split at h
      · exact absurd h (by simp)
      · next endv hend =>
        split at h
        · exact absurd h (by simp)
        · next hlt =>
          simp only [Except.ok.injEq, Prod.mk.injEq] at h
          obtain ⟨hs, he, hst, hfl⟩ := h
          have hstart_nonneg : 0 ≤ start := by
            unfold parseField at hstart
            split at hstart
            · split at hstart
              · next v hint =>
                simp only [Except.ok.injEq] at hstart
                exact hstart ▸ pyIntChars_nonneg (splitOnceOnDash_no_dash hsplit) hint
              · exact absurd hstart (by simp)
            · simp only [Except.ok.injEq] at hstart
              omega
          refine ⟨hs ▸ hstart_nonneg, by omega, ?_, hst.symm, hfl.symm⟩
          rw [← he]
          split
          · omega
          · next hcl => omega

theorem parse_range_header_bytes (rest : String) (fs : Int) :
    parse_range_header (some ("bytes=" ++ rest)) fs = parseRangeBody rest.data fs := by
  have hdata : ("bytes=" ++ rest).data = "bytes=".data ++ rest.data :=
    String.data_append "bytes=" rest
  have hlen : ("bytes=".data).length = 6 := rfl
  have htake : ("bytes=" ++ rest).data.take 6 = "bytes=".data := by
    rw [hdata, ← hlen, List.take_left]
  have hdrop : ("bytes=" ++ rest).data.drop 6 = rest.data := by
    rw [hdata, ← hlen, List.drop_left]
  have hred : parse_range_header (some ("bytes=" ++ rest)) fs =
      if ("bytes=" ++ rest).data.take 6 = "bytes=".data then
        parseRangeBody (("bytes=" ++ rest).data.drop 6) fs
      else .ok (0, fs - 1, 200, false) := rfl
  rw [hred]
  simp [htake, hdrop]

/-- C3: `parse_range_header` at `file_size = 1000` on the five specified
inputs returns exactly the specified results: `(0, 499, 206, partial)` for
`"bytes=0-499"`, the full-file `(0, 999, 200, non-partial)` for a missing
header, `(999, 999, 206, partial)` for `"bytes=999-"`, the not-satisfiable
`IndexError` for `"bytes=1000-"`, and the clamped `(0, 999, 206, partial)`
for `"bytes=0-2000"`. -/
theorem parse_range_header_examples_1000 :
    parse_range_header (some "bytes=0-499") 1000 = .ok (0, 499, 206, true) ∧
    parse_range_header none 1000 = .ok (0, 999, 200, false) ∧
    parse_range_header (some "bytes=999-") 1000 = .ok (999, 999, 206, true) ∧
    parse_range_header (some "bytes=1000-") 1000 = .error .indexError ∧
    parse_range_header (some "bytes=0-2000") 1000 = .ok (0, 999, 206, true) :=
  ⟨rfl, rfl, rfl, rfl, rfl⟩

/-- C2 counterexample: `"bytes=5-2"` against `file_size = 1000` is returned
as a satisfiable partial result `(5, 2, 206, partial)` even though
`start > end`, so the claimed invariant `start ≤ end` fails. -/
theorem parse_range_header_inverted_range :
    parse_range_header (some "bytes=5-2") 1000 = .ok (5, 2, 206, true) ∧
    ¬((5 : Int) ≤ 2) :=
  ⟨rfl, by decide⟩

/-- C2 amended: whenever `parse_range_header` returns a partial result
(no exception, partial flag set), the offsets satisfy
`0 ≤ start ≤ file_size - 1` and `end ≤ file_size - 1`; the claimed
`start ≤ end` half does not hold (e.g. `"bytes=5-2"`). -/
theorem parse_range_header_partial_bounds (h : Option String) (fs s e : Int)
    (st : Nat) (hfs : 1 ≤ fs)
    (hok : parse_range_header h fs = .ok (s, e, st, true)) :
    0 ≤ s ∧ s ≤ fs - 1 ∧ e ≤ fs - 1 := by
  cases h with
  | none => exact absurd hok (by simp [parse_range_header])
  | some hdr =>
    have hok' : (if hdr.data.take 6 = "bytes=".data then
        parseRangeBody (hdr.data.drop 6) fs
      else .ok (0, fs - 1, 200, false)) = Except.ok (s, e, st, true) := hok
    by_cases hp : hdr.data.take 6 = "bytes=".data
    · rw [if_pos hp] at hok'
      obtain ⟨h1, h2, h3, _, _⟩ := parseRangeBody_ok_bounds hok'
      exact ⟨h1, h2, h3⟩
    · rw [if_neg hp] at hok'
      simp at hok'

/-- Witness for the amended C2 at `"bytes=0-499"`, `file_size = 1000`. -/
theorem parse_range_header_partial_bounds_witness :
    0 ≤ (0 : Int) ∧ (0 : Int) ≤ 1000 - 1 ∧ (499 : Int) ≤ 1000 - 1 :=
  parse_range_header_partial_bounds (some "bytes=0-499") 1000 0 499 206
    (by decide) rfl

/-! ### Sorting: directory grouping and mutation -/

/-- C1: evaluation at the failing input.  With `sort_order = "desc"` the
code sorts by the reversed full key, so the file `"b"` is placed before
the directory `"a"`: a directory does not precede a file, contradicting
the `Directories first` rule stated in the code's own comment and the
spec. -/
theorem sort_desc_places_file_before_directory :
    (sort_and_paginate_entries
        [⟨"a", true, 0, 0⟩, ⟨"b", false, 0, 0⟩] 1 50 "name" "desc").1.1
      = [⟨"b", false, 0, 0⟩, ⟨"a", true, 0, 0⟩] ∧
    (⟨"b", false, 0, 0⟩ : Entry).is_dir = false ∧
    (⟨"a", true, 0, 0⟩ : Entry).is_dir = true := by
  refine ⟨?_, rfl, rfl⟩
  rfl

/-- C7 counterexample: `sort_and_paginate_entries` sorts the caller's list
in place (`entries.sort(...)`), so after the call the caller's list is no
longer in its original order. -/
theorem sort_and_paginate_mutates_input :
    (sort_and_paginate_entries
        [⟨"b", false, 0, 0⟩, ⟨"a", true, 0, 0⟩] 1 50 "name" "asc").2
      ≠ [⟨"b", false, 0, 0⟩, ⟨"a", true, 0, 0⟩] := by
  decide

/-- C7 amended: the call leaves the caller's list holding the same
elements (a permutation of the input — it is re-ordered in place into the
sorted order, not otherwise modified). -/
theorem sort_and_paginate_permutes_input (entries : List Entry)
    (page_num page_size : Int) (sort_by sort_order : String) :
    ((sort_and_paginate_entries entries page_num page_size
        sort_by sort_order).2).Perm entries :=
  List.perm_insertionSort _ entries

/-! ### Existence guard -/

/-- C8 counterexample: with `overwrite = False`, an adapter whose `exists`
check itself raises an `HTTPException` (here a 500) does not fail open:
`check_file_exists` re-raises it instead of returning normally. -/
theorem check_file_exists_http_error_propagates :
    check_file_exists (.callable (fun _ _ => .errHTTP 500 "boom")) "r" "p" false
      = .error (500, "boom") := rfl

/-- C8 amended: with `overwrite = true` the guard never raises; with
`overwrite = false` it raises the 409 conflict exactly when a callable
`exists` capability reports `true`; a missing or non-callable capability,
a `false` report, or a non-HTTP failure of the check all return normally
(fail open); an `HTTPException` raised by the check itself is re-raised. -/
theorem check_file_exists_spec (cap : ExistsCap) (root rel : String) :
    check_file_exists cap root rel true = .ok () ∧
    ((cap = .absent ∨ cap = .nonCallable) →
      check_file_exists cap root rel false = .ok ()) ∧
    (∀ f, cap = .callable f →
      (f root rel = .ok true →
        check_file_exists cap root rel false = .error (409, "Destination exists")) ∧
      (f root rel = .ok false → check_file_exists cap root rel false = .ok ()) ∧
      (f root rel = .errOther → check_file_exists cap root rel false = .ok ()) ∧
      (∀ c d, f root rel = .errHTTP c d →
        check_file_exists cap root rel false = .error (c, d))) := by
  refine ⟨?_, ?_, ?_⟩
  · cases cap <;> rfl
  · rintro (rfl | rfl) <;> rfl
  · rintro f rfl
    refine ⟨?_, ?_, ?_, ?_⟩
    · intro hf; simp [check_file_exists, hf]
    · intro hf; simp [check_file_exists, hf]
    · intro hf; simp [check_file_exists, hf]
    · intro c d hf; simp [check_file_exists, hf]

/-- Witness for the amended C8: a callable `exists` returning `true` under
`overwrite = false` raises the 409 conflict. -/
theorem check_file_exists_spec_witness :
    check_file_exists (.callable (fun _ _ => .ok true)) "r" "p" false
      = .error (409, "Destination exists") :=
  ((check_file_exists_spec (.callable (fun _ _ => .ok true)) "r" "p").2.2
    (fun _ _ => .ok true) rfl).1 rfl

/-! ### EXIF extraction -/

/-- C9: `extract_exif_data` never propagates an exception: whatever the
outcome of opening and decoding the image, the embedded `try`/`except`
body yields a normal return, which is either the absent result `none`
(decode failure or no metadata) or a mapping sending each raw tag/value
pair to its stringified form. -/
theorem extract_exif_data_never_raises (openRes : Except PyErr PILImage) :
    ∃ raw : List (Int × String),
      extract_exif_data openRes = .ok none ∨
      extract_exif_data openRes
        = .ok (some (raw.map (fun p => (toString p.1, p.2)))) := by
  cases openRes with
  | error e => exact ⟨[], Or.inl rfl⟩
  | ok img =>
    obtain ⟨g, pv⟩ := img
    cases g with
    | some r =>
      cases r with
      | error e => exact ⟨[], Or.inl rfl⟩
      | ok d =>
        by_cases hd : d = []
        · subst hd; exact ⟨[], Or.inl rfl⟩
        · refine ⟨d, Or.inr ?_⟩
          simp [extract_exif_data, hd]
    | none =>
      cases pv with
      | some r =>
        cases r with
        | error e => exact ⟨[], Or.inl rfl⟩
        | ok d =>
          by_cases hd : d = []
          · subst hd; exact ⟨[], Or.inl rfl⟩
          · refine ⟨d, Or.inr ?_⟩
            simp [extract_exif_data, hd]
      | none => exact ⟨[], Or.inl rfl⟩

/-! ### Stream headers -/

/-- C5: the header mapping always carries `Accept-Ranges: bytes` and the
given `Content-Type`; a partial response carries
`Content-Range: bytes {start}-{end}/{file_size}` and
`Content-Length = end - start + 1`; a full response carries
`Content-Length = file_size` and no `Content-Range`. -/
theorem build_stream_headers_spec (ct : String) (fs st en : Int)
    (partialFlag : Bool) (fn : Option String) :
    pyDictGet (build_stream_headers ct fs st en partialFlag fn) "Accept-Ranges"
      = some "bytes" ∧
    pyDictGet (build_stream_headers ct fs st en partialFlag fn) "Content-Type"
      = some ct ∧
    (partialFlag = true →
      pyDictGet (build_stream_headers ct fs st en partialFlag fn) "Content-Range"
        = some ("bytes " ++ toString st ++ "-" ++ toString en ++ "/" ++ toString fs) ∧
      pyDictGet (build_stream_headers ct fs st en partialFlag fn) "Content-Length"
        = some (toString (en - st + 1))) ∧
    (partialFlag = false →
      pyDictGet (build_stream_headers ct fs st en partialFlag fn) "Content-Length"
        = some (toString fs) ∧
      pyDictGet (build_stream_headers ct fs st en partialFlag fn) "Content-Range"
        = none) := by
  rcases fn with _ | f
  · cases partialFlag <;> simp [build_stream_headers, dictSet, pyDictGet]
  · by_cases hf : f = "" <;> cases partialFlag <;>
      simp [build_stream_headers, dictSet, pyDictGet, hf]

/-- Witness for C5 at a concrete partial response. -/
theorem build_stream_headers_spec_witness :
    pyDictGet (build_stream_headers "text/plain" 100 0 9 true none) "Content-Range"
      = some "bytes 0-9/100" ∧
    pyDictGet (build_stream_headers "text/plain" 100 0 9 true none) "Content-Length"
      = some "10" := by
  have h := (build_stream_headers_spec "text/plain" 100 0 9 true none).2.2.1 rfl
  refine ⟨h.1.trans ?_, h.2.trans ?_⟩ <;> rfl

/-- C10: the header mapping contains `Content-Disposition` exactly when
the filename argument is present and non-empty; an empty string filename
is omitted just like an absent one. -/
theorem content_disposition_iff_nonempty_filename (ct : String)
    (fs st en : Int) (partialFlag : Bool) (fn : Option String) :
    (pyDictGet (build_stream_headers ct fs st en partialFlag fn)
        "Content-Disposition").isSome
      = (match fn with
         | some f => decide (f ≠ "")
         | none => false) := by
  rcases fn with _ | f
  · cases partialFlag <;> simp [build_stream_headers, dictSet, pyDictGet]
  · by_cases hf : f = "" <;> cases partialFlag <;>
      simp [build_stream_headers, dictSet, pyDictGet, hf]

/-! ### Pagination lemmas -/

theorem pySlice_page_length_le {α : Type} (l : List α) (a ps : Int)
    (hps : 0 < ps) : (pySlice l a (a + ps)).length ≤ ps.toNat := by
  simp only [pySlice, pyResolveIdx, List.length_drop, List.length_take,
    inf_eq_min, Nat.min_def]
  split_ifs <;> omega

theorem pySlice_start_ge {α : Type} (l : List α) (a b : Int)
    (ha : (l.length : Int) ≤ a) : pySlice l a b = [] := by
  have h0 : ¬ a < 0 := by omega
  simp only [pySlice, pyResolveIdx, if_neg h0]
  apply List.drop_eq_nil_of_le
  have hlal : l.length ≤ a.toNat := by omega
  rw [min_eq_right hlal]
  calc (l.take (if b < 0 then ((l.length : Int) + b).toNat
          else min b.toNat l.length)).length
      ≤ l.length := by
        rw [List.length_take]
        exact inf_le_right

theorem pySlice_cast {α : Type} (l : List α) (i k : Nat) :
    pySlice l (i : Int) ((i : Int) + (k : Int)) = (l.drop i).take k := by
  have h1 : ¬ ((i : Int) < 0) := by omega
  have h2 : ¬ ((i : Int) + (k : Int) < 0) := by omega
  simp only [pySlice, pyResolveIdx, if_neg h1, if_neg h2]
  have hti : ((i : Int)).toNat = i := by omega
  have htik : (((i : Int) + (k : Int))).toNat = i + k := by omega
  rw [hti, htik]
  rcases le_or_lt i l.length with hi | hi
  · rw [min_eq_left hi]
    rcases le_or_lt (i + k) l.length with hik | hik
    · rw [min_eq_left hik, List.drop_take]
      congr 1
      omega
    · rw [min_eq_right (by omega : l.length ≤ i + k), List.take_length,
        List.take_of_length_le (by rw [List.length_drop]; omega)]
  · rw [min_eq_right (le_of_lt hi),
      min_eq_right (by omega : l.length ≤ i + k), List.take_length,
      List.drop_length, List.drop_eq_nil_of_le (by omega : l.length ≤ i)]
    simp

theorem joinPagesNat {α : Type} (k : Nat) :
    ∀ (n : Nat) (l : List α), l.length ≤ n * k →
      ((List.range n).map (fun i => (l.drop (i * k)).take k)).flatten = l := by
  intro n
  induction n with
  | zero =>
    intro l h
    have hempty : l = [] := List.eq_nil_of_length_eq_zero (by omega)
    subst hempty
    simp
  | succ n ih =>
    intro l h
    rw [List.range_succ_eq_map, List.map_cons, List.flatten_cons, List.map_map]
    have hmap : ((List.range n).map ((fun i => (l.drop (i * k)).take k) ∘ Nat.succ))
        = (List.range n).map (fun i => (((l.drop k).drop (i * k))).take k) := by
      apply List.map_congr_left
      intro i _
      simp only [Function.comp_apply]
      rw [List.drop_drop]
      congr 2
      rw [Nat.succ_mul]
      omega
    rw [hmap]
    have hlenk : (l.drop k).length ≤ n * k := by
      rw [List.length_drop]
      rw [Nat.succ_mul] at h
      omega
    rw [ih (l.drop k) hlenk]
    simp

/-- C6: with a positive page size, for every page number the page slice
holds at most `page_size` entries and the reported total is the input
length; a page number past the last page yields an empty slice (no
exception is modelled because none can occur); and concatenating the
pages for page numbers 1, 2, 3, … reproduces the whole sorted list, each
entry exactly once. -/
theorem sort_and_paginate_pagination (entries : List Entry) (ps : Int)
    (sb so : String) (hps : 0 < ps) :
    (∀ p : Int,
      (sort_and_paginate_entries entries p ps sb so).1.2 = entries.length ∧
      ((sort_and_paginate_entries entries p ps sb so).1.1).length ≤ ps.toNat) ∧
    (∀ p : Int, 1 ≤ p → (entries.length : Int) ≤ (p - 1) * ps →
      (sort_and_paginate_entries entries p ps sb so).1.1 = []) ∧
    (∀ n : Nat, entries.length ≤ n * ps.toNat →
      ((List.range n).map
          (fun i : Nat =>
            (sort_and_paginate_entries entries ((i : Int) + 1) ps sb so).1.1)).flatten
        = pySortEntries entries sb so) := by
  obtain ⟨k, rfl⟩ : ∃ k : Nat, ps = (k : Int) := ⟨ps.toNat, by omega⟩
  have htk : ((k : Int)).toNat = k := by omega
  have hlen : (pySortEntries entries sb so).length = entries.length :=
    List.length_insertionSort _ entries
  refine ⟨?_, ?_, ?_⟩
  · intro p
    refine ⟨hlen, ?_⟩
    have hb := pySlice_page_length_le (pySortEntries entries sb so)
      ((p - 1) * (k : Int)) (k : Int) hps
    rw [htk] at hb
    rw [htk]
    exact hb
  · intro p hp hbeyond
    exact pySlice_start_ge _ _ _ (by rw [hlen]; exact hbeyond)
  · intro n hn
    rw [htk] at hn
    have hpage : ∀ i : Nat,
        (sort_and_paginate_entries entries ((i : Int) + 1) (k : Int) sb so).1.1
          = ((pySortEntries entries sb so).drop (i * k)).take k := by
      intro i
      show pySlice (pySortEntries entries sb so)
        (((i : Int) + 1 - 1) * (k : Int)) ((((i : Int) + 1 - 1)) * (k : Int) + (k : Int)) = _
      have h1 : ((i : Int) + 1 - 1) * (k : Int) = ((i * k : Nat) : Int) := by
        push_cast
        ring
      rw [h1]
      exact pySlice_cast (pySortEntries entries sb so) (i * k) k
    rw [List.map_congr_left (fun i _ => hpage i)]
    exact joinPagesNat k n (pySortEntries entries sb so) (by rw [hlen]; exact hn)

/-- Witness for C6: with two entries and `page_size = 1`, page 3 is past
the last page and comes back empty. -/
theorem sort_and_paginate_pagination_witness :
    (sort_and_paginate_entries
        [⟨"b", false, 0, 0⟩, ⟨"a", true, 0, 0⟩] 3 1 "name" "asc").1.1 = [] :=
  (sort_and_paginate_pagination
      [⟨"b", false, 0, 0⟩, ⟨"a", true, 0, 0⟩] 1 "name" "asc" (by decide)).2.1
    3 (by decide) (by decide)

/-! ### Range-parser error characterization -/

theorem parseField_error_iff (s : List Char) (d : Int) :
    parseField s d = .error .valueError ↔ fieldBad s := by
  unfold parseField fieldBad
  by_cases hb : pyStrip s ≠ []
  · rw [if_pos hb]
    rcases hint : pyIntChars s with _ | v
    · simp [hb]
    · simp [hb, hint]
  · rw [if_neg hb]
    simp [hb]

theorem parseField_ok (s : List Char) (d : Int) (h : ¬ fieldBad s) :
    parseField s d = .ok (if pyStrip s = [] then d else (pyIntChars s).getD 0) := by
  unfold parseField
  unfold fieldBad at h
  by_cases hb : pyStrip s = []
  · rw [if_neg (by simpa using hb), if_pos hb]
  · rw [if_pos hb]
    rcases hint : pyIntChars s with _ | v
    · exact absurd ⟨hb, hint⟩ h
    · simp [hint, hb]

theorem parseRangeBody_none_eq (part : List Char) (fs : Int)
    (hsp : splitOnceOnDash part = none) :
    parseRangeBody part fs = .error .valueError := by
  unfold parseRangeBody
  rw [hsp]

theorem parseRangeBody_some_eq (part s e : List Char) (fs : Int)
    (hsp : splitOnceOnDash part = some (s, e)) :
    parseRangeBody part fs =
      (match parseField s 0 with
       | .error err => .error err
       | .ok start =>
         match parseField e (fs - 1) with
         | .error err => .error err
         | .ok endv =>
           if start ≥ fs then .error .indexError
           else .ok (start, if endv ≥ fs then fs - 1 else endv, 206, true)) := by
  unfold parseRangeBody
  rw [hsp]

/-- C4 counterexample: for the header `"bytes= -"` the left side of the
first `'-'` is the non-empty string `" "`, which is not a valid integer,
yet no `ValueError` is raised: because the side is blank the code skips
parsing it (`if s.strip():`) and returns a normal partial result. -/
theorem parse_range_header_blank_field_counterexample :
    splitOnceOnDash " -".data = some (" ".data, "".data) ∧
    " ".data ≠ ([] : List Char) ∧
    pyIntChars " ".data = none ∧
    parse_range_header (some "bytes= -") 10 = .ok (0, 9, 206, true) :=
  ⟨by decide, by decide, by decide, rfl⟩

/-- C4 amended: for every `bytes=`-prefixed header, `ValueError` is raised
exactly when the text after the prefix has no `'-'` or a side of the
first `'-'` whose stripped text is non-empty is not a valid integer;
given both fields parse, `IndexError` is raised exactly when the resulting
start is at least `file_size`; in all other prefixed cases the call
returns normally. -/
theorem parse_range_header_error_characterization (rest : String) (fs : Int) :
    (parse_range_header (some ("bytes=" ++ rest)) fs = .error .valueError ↔
      splitOnceOnDash rest.data = none ∨
        (∃ s e, splitOnceOnDash rest.data = some (s, e) ∧
          (fieldBad s ∨ fieldBad e))) ∧
    (parse_range_header (some ("bytes=" ++ rest)) fs = .error .indexError ↔
      (∃ s e, splitOnceOnDash rest.data = some (s, e) ∧
        ¬ fieldBad s ∧ ¬ fieldBad e ∧ fs ≤ effStart s)) ∧
    ((∃ r, parse_range_header (some ("bytes=" ++ rest)) fs = .ok r) ↔
      (∃ s e, splitOnceOnDash rest.data = some (s, e) ∧
        ¬ fieldBad s ∧ ¬ fieldBad e ∧ effStart s < fs)) := by
  rw [parse_range_header_bytes]
  rcases hsp : splitOnceOnDash rest.data with _ | ⟨s, e⟩
  · rw [parseRangeBody_none_eq _ _ hsp]
    refine ⟨?_, ?_, ?_⟩ <;> simp
  · rw [parseRangeBody_some_eq _ _ _ _ hsp]
    have hr1 : (some (s, e) = none ∨ ∃ s1 e1, some (s, e) = some (s1, e1) ∧
        (fieldBad s1 ∨ fieldBad e1)) ↔ (fieldBad s ∨ fieldBad e) := by
      constructor
      · rintro (h | ⟨s1, e1, heq, hb⟩)
        · simp at h
        · simp only [Option.some.injEq, Prod.mk.injEq] at heq
          obtain ⟨rfl, rfl⟩ := heq
          exact hb
      · intro h
        exact Or.inr ⟨s, e, rfl, h⟩
    have hr2 : (∃ s1 e1, some (s, e) = some (s1, e1) ∧
        ¬ fieldBad s1 ∧ ¬ fieldBad e1 ∧ fs ≤ effStart s1) ↔
        (¬ fieldBad s ∧ ¬ fieldBad e ∧ fs ≤ effStart s) := by
      constructor
      · rintro ⟨s1, e1, heq, h1, h2, h3⟩
        simp only [Option.some.injEq, Prod.mk.injEq] at heq
        obtain ⟨rfl, rfl⟩ := heq
        exact ⟨h1, h2, h3⟩
      · rintro ⟨h1, h2, h3⟩
        exact ⟨s, e, rfl, h1, h2, h3⟩
    have hr3 : (∃ s1 e1, some (s, e) = some (s1, e1) ∧
        ¬ fieldBad s1 ∧ ¬ fieldBad e1 ∧ effStart s1 < fs) ↔
        (¬ fieldBad s ∧ ¬ fieldBad e ∧ effStart s < fs) := by
      constructor
      · rintro ⟨s1, e1, heq, h1, h2, h3⟩
        simp only [Option.some.injEq, Prod.mk.injEq] at heq
        obtain ⟨rfl, rfl⟩ := heq
        exact ⟨h1, h2, h3⟩
      · rintro ⟨h1, h2, h3⟩
        exact ⟨s, e, rfl, h1, h2, h3⟩
    rw [hr1, hr2, hr3]
    by_cases hbs : fieldBad s
    · rw [(parseField_error_iff s 0).2 hbs]
      refine ⟨?_, ?_, ?_⟩ <;> simp [hbs]
    · rw [parseField_ok s 0 hbs]
      by_cases hbe : fieldBad e
      · rw [(parseField_error_iff e (fs - 1)).2 hbe]
        refine ⟨?_, ?_, ?_⟩ <;> simp [hbs, hbe]
      · rw [parseField_ok e (fs - 1) hbe]
        rw [show (if pyStrip s = [] then (0 : Int) else (pyIntChars s).getD 0)
            = effStart s from rfl]
        by_cases hge : fs ≤ effStart s
        · refine ⟨?_, ?_, ?_⟩ <;> simp [hbs, hbe, hge] <;> omega
        · refine ⟨?_, ?_, ?_⟩ <;> simp [hbs, hbe, hge] <;> omega

/-- Witness for the amended C4: a dash-free suffix raises `ValueError`,
and an in-range start returns normally. -/
theorem parse_range_header_error_characterization_witness :
    parse_range_header (some ("bytes=" ++ "abc")) 10 = .error .valueError ∧
    (∃ r, parse_range_header (some ("bytes=" ++ "3-")) 10 = .ok r) :=
  ⟨(parse_range_header_error_characterization "abc" 10).1.2 (Or.inl (by decide)),
   (parse_range_header_error_characterization "3-" 10).2.2.2
     ⟨"3".data, "".data, by decide, by decide, by decide, by decide⟩⟩
